import Mathlib

/-!
Verification of the PBFT keyserver client (Mailvelope fork).

The development shallowly embeds the quorum-broadcast client
(`PBFTClient._broadcast`, `lookup`, `upload`, `findPrivateKey`, `_path`)
and the `KeyServer` wrapper (`getPBFTClient`, `lookup`). Concurrency is
abstracted as an arbitrary finite arrival order of node outcomes; the
aggregation state (`responseMap`, `promiseResolved`) is explicit state
threaded through a fold.
-/

/-- A node's outcome for one broadcast: an HTTP-ok response with parsed body,
or a failure (non-ok response, or the locally synthesized timeout). -/
inductive NodeOutcome where
  | success (status : Nat) (statusText : String) (body : String)
  | failure (status : Nat) (statusText : String) (body : String)
deriving DecidableEq, Repr

/-- Canonical bucketing key: the template string
`{status} {statusText} {body}` built in `processResponse` for both the
ok branch (`res`) and the failure branch (`error`). -/
def responseKey : NodeOutcome → String
  | .success s t b => s!"{s} {t} {b}"
  | .failure s t b => s!"{s} {t} {b}"

/-- Final settlement of a broadcast call: `resolve({status, statusText, body})`
on a Success quorum, `reject(error)` with the canonical key string on a
Failure quorum. -/
inductive QuorumResult where
  | resolved (status : Nat) (statusText : String) (body : String)
  | rejected (errorKey : String)
deriving DecidableEq, Repr

/-- The settlement produced when outcome `o` completes a quorum:
the ok branch resolves with the outcome's fields, the failure branch
rejects with the canonical key string. -/
def settleOf : NodeOutcome → QuorumResult
  | .success s t b => .resolved s t b
  | .failure s t b => .rejected s!"{s} {t} {b}"

/-- Lookup in the `responseMap` (a default-0 counter map: the `Proxy` over
`Map` returns `0` for absent keys). -/
def getCount : List (String × Nat) → String → Nat
  | [], _ => 0
  | p :: rest, k => if p.1 = k then p.2 else getCount rest k

/-- Store a counter value in the `responseMap`. -/
def setCount : List (String × Nat) → String → Nat → List (String × Nat)
  | [], k, v => [(k, v)]
  | p :: rest, k, v => if p.1 = k then (k, v) :: rest else p :: setCount rest k v

/-- State of one `_broadcast` invocation: the `responseMap` counters and the
one-shot latch (`promiseResolved` together with the delivered result). -/
structure BCState where
  counts : List (String × Nat)
  settled : Option QuorumResult
deriving DecidableEq, Repr

/-- `processResponse` of `PBFTClient._broadcast`: increment the arriving
outcome's counter; if the new count is exactly `F + 1` and the promise has
not yet settled, settle it with this outcome's `QuorumResult`. -/
def processResponse (F : Nat) (st : BCState) (o : NodeOutcome) : BCState :=
  let k := responseKey o
  let c := getCount st.counts k + 1
  { counts := setCount st.counts k c
    settled :=
      if c = F + 1 ∧ st.settled = none then some (settleOf o) else st.settled }

/-- One `_broadcast` call observed over a finite arrival order of node
outcomes, starting from an empty `responseMap` and an unsettled promise. -/
def broadcastRun (F : Nat) (arrivals : List NodeOutcome) : BCState :=
  arrivals.foldl (processResponse F) ⟨[], none⟩

/-- `this.F = Math.ceil((this.nodes.length - 1) / 3)`; for natural `n`,
`ceil((n - 1) / 3) = (n + 1) / 3` (and JS gives `-0 → 0` at `n = 0`). -/
def clusterF (n : Nat) : Nat := (n + 1) / 3

/-- Specification-side scan (follows the spec's words): walking the arrival
order while counting keys, the first outcome whose key's counter reaches
`F + 1` determines the `QuorumResult`; if none does, the call never settles. -/
def firstQuorum (F : Nat) (m : List (String × Nat)) : List NodeOutcome → Option QuorumResult
  | [] => none
  | o :: rest =>
    let k := responseKey o
    let c := getCount m k + 1
    if c = F + 1 then some (settleOf o) else firstQuorum F (setCount m k c) rest

/-- Number of arrivals whose `responseKey` is `k`. -/
def countKey (k : String) : List NodeOutcome → Nat
  | [] => 0
  | o :: rest => (if responseKey o = k then 1 else 0) + countKey k rest

theorem getCount_setCount_self (m : List (String × Nat)) (k : String) (v : Nat) :
    getCount (setCount m k v) k = v := by
  induction m with
  | nil => simp [setCount, getCount]
  | cons p rest ih =>
    by_cases h : p.1 = k
    · simp [setCount, getCount, h]
    · simp [setCount, getCount, h, ih]

theorem getCount_setCount_ne (m : List (String × Nat)) (k k' : String) (v : Nat)
    (h : k' ≠ k) : getCount (setCount m k v) k' = getCount m k' := by
  induction m with
  | nil => simp [setCount, getCount, Ne.symm h]
  | cons p rest ih =>
    by_cases hp : p.1 = k
    · simp [setCount, getCount, hp, Ne.symm h]
    · simp [setCount, getCount, hp, ih]

theorem getCount_processResponse (F : Nat) (st : BCState) (o : NodeOutcome) (k : String) :
    getCount (processResponse F st o).counts k =
      getCount st.counts k + (if responseKey o = k then 1 else 0) := by
  by_cases h : responseKey o = k
  · subst h
    simp [processResponse, getCount_setCount_self]
  · simp [processResponse, h,
      getCount_setCount_ne st.counts (responseKey o) k
        (getCount st.counts (responseKey o) + 1) (Ne.symm h)]

theorem processResponse_settled_some (F : Nat) (st : BCState) (o : NodeOutcome)
    (r : QuorumResult) (h : st.settled = some r) :
    (processResponse F st o).settled = some r := by
  simp [processResponse, h]

theorem foldl_settled_some (F : Nat) (arrivals : List NodeOutcome) :
    ∀ st r, st.settled = some r →
      (arrivals.foldl (processResponse F) st).settled = some r := by
  induction arrivals with
  | nil => intro st r h; simpa using h
  | cons o rest ih =>
    intro st r h
    simpa using ih (processResponse F st o) r (processResponse_settled_some F st o r h)

theorem foldl_none_firstQuorum (F : Nat) (arrivals : List NodeOutcome) :
    ∀ m, (arrivals.foldl (processResponse F) ⟨m, none⟩).settled = firstQuorum F m arrivals := by
  induction arrivals with
  | nil => intro m; simp [firstQuorum]
  | cons o rest ih =>
    intro m
    by_cases h : getCount m (responseKey o) + 1 = F + 1
    · have hstep : processResponse F ⟨m, none⟩ o =
          ⟨setCount m (responseKey o) (getCount m (responseKey o) + 1), some (settleOf o)⟩ := by
        simp [processResponse, h]
      simp only [List.foldl_cons, hstep]
      rw [foldl_settled_some F rest _ (settleOf o) rfl]
      simp [firstQuorum, h]
    · have hstep : processResponse F ⟨m, none⟩ o =
          ⟨setCount m (responseKey o) (getCount m (responseKey o) + 1), none⟩ := by
        simp [processResponse, h]
      simp only [List.foldl_cons, hstep]
      rw [ih]
      simp [firstQuorum, h]

theorem foldl_counts_accum (F : Nat) (arrivals : List NodeOutcome) :
    ∀ st k, getCount (arrivals.foldl (processResponse F) st).counts k =
      getCount st.counts k + countKey k arrivals := by
  induction arrivals with
  | nil => intro st k; simp [countKey]
  | cons o rest ih =>
    intro st k
    simp only [List.foldl_cons, countKey]
    rw [ih, getCount_processResponse]
    omega

/-- C1: for a cluster of `N` nodes with `F = ceil((N-1)/3)`, a broadcast call
settles exactly once, precisely when some ResponseKey's running counter first
reaches `F + 1` (a Success key resolves with that outcome's status, statusText
and body; a Failure key rejects with its canonical key); outcomes arriving
after settlement are still counted but change the settlement no further. -/
theorem broadcast_settles_at_first_quorum (N F : Nat) (arrivals : List NodeOutcome)
    (hF : F = clusterF N) :
    (broadcastRun F arrivals).settled = firstQuorum F [] arrivals ∧
    (∀ k, getCount (broadcastRun F arrivals).counts k = countKey k arrivals) ∧
    (∀ r later, (broadcastRun F arrivals).settled = some r →
      (broadcastRun F (arrivals ++ later)).settled = some r) := by
  refine ⟨foldl_none_firstQuorum F arrivals [], ?_, ?_⟩
  · intro k
    simpa [getCount] using foldl_counts_accum F arrivals ⟨[], none⟩ k
  · intro r later h
    have : broadcastRun F (arrivals ++ later) =
        later.foldl (processResponse F) (broadcastRun F arrivals) := by
      simp [broadcastRun, List.foldl_append]
    rw [this]
    exact foldl_settled_some F later (broadcastRun F arrivals) r h

/-- Quorum-reached scenario from the spec: N = 4, F = 1, arrivals
Success "X", Timeout, Success "X". -/
def arrC1 : List NodeOutcome :=
  [.success 200 "OK" "X", .failure 520 "Request Timeout" "", .success 200 "OK" "X"]

theorem broadcast_settles_at_first_quorum_witness :
    clusterF 1 = 0 ∧ clusterF 4 = 1 ∧ clusterF 7 = 2 ∧ clusterF 10 = 3 ∧
    ((broadcastRun (clusterF 4) arrC1).settled = firstQuorum (clusterF 4) [] arrC1 ∧
      (∀ k, getCount (broadcastRun (clusterF 4) arrC1).counts k = countKey k arrC1) ∧
      (∀ r later, (broadcastRun (clusterF 4) arrC1).settled = some r →
        (broadcastRun (clusterF 4) (arrC1 ++ later)).settled = some r)) ∧
    firstQuorum (clusterF 4) [] arrC1 = some (QuorumResult.resolved 200 "OK" "X") :=
  ⟨rfl, rfl, rfl, rfl, broadcast_settles_at_first_quorum 4 (clusterF 4) arrC1 rfl, by decide⟩

theorem firstQuorum_none_of_bounded (F : Nat) (arrivals : List NodeOutcome) :
    ∀ m, (∀ k, getCount m k + countKey k arrivals ≤ F) →
      firstQuorum F m arrivals = none := by
  induction arrivals with
  | nil => intro m _; simp [firstQuorum]
  | cons o rest ih =>
    intro m hb
    have hko := hb (responseKey o)
    have hself : (if responseKey o = responseKey o then 1 else 0) = 1 := by simp
    rw [countKey, hself] at hko
    have hne : ¬(getCount m (responseKey o) + 1 = F + 1) := by omega
    rw [firstQuorum]
    simp only [hne, if_false]
    apply ih
    intro k
    by_cases hk : k = responseKey o
    · subst hk
      rw [getCount_setCount_self]
      omega
    · rw [getCount_setCount_ne m (responseKey o) k _ hk]
      have := hb k
      rw [countKey] at this
      omega

theorem countKey_eq_zero_of_not_mem (k : String) (arrivals : List NodeOutcome)
    (hk : k ∉ arrivals.map responseKey) : countKey k arrivals = 0 := by
  induction arrivals with
  | nil => simp [countKey]
  | cons o rest ih =>
    rw [countKey]
    have hne : ¬(responseKey o = k) := by
      intro he; exact hk (by simp [← he])
    rw [if_neg hne]
    have hm : k ∉ rest.map responseKey := by
      intro hm; exact hk (by simp [List.mem_map] at hm ⊢; tauto)
    simp [ih hm]

/-- C2: if the arrivals split so that no ResponseKey's total count reaches
`F + 1`, the broadcast call never settles: it neither resolves nor rejects. -/
theorem broadcast_split_never_settles (N F : Nat) (arrivals : List NodeOutcome)
    (hF : F = clusterF N)
    (hsplit : ∀ k ∈ arrivals.map responseKey, countKey k arrivals ≤ F) :
    (broadcastRun F arrivals).settled = none := by
  rw [broadcastRun, foldl_none_firstQuorum F arrivals []]
  apply firstQuorum_none_of_bounded
  intro k
  by_cases hk : k ∈ arrivals.map responseKey
  · have := hsplit k hk
    simp [getCount]
    omega
  · simp [getCount, countKey_eq_zero_of_not_mem k arrivals hk]

/-- Indeterminate-split scenario from the spec: N = 4, F = 1, four pairwise
distinct outcomes Success "X", Success "Y", Success "Z", Timeout. -/
def arrC2 : List NodeOutcome :=
  [.success 200 "OK" "X", .success 200 "OK" "Y", .success 200 "OK" "Z",
   .failure 520 "Request Timeout" ""]

theorem broadcast_split_never_settles_witness :
    (broadcastRun (clusterF 4) arrC2).settled = none :=
  broadcast_split_never_settles 4 (clusterF 4) arrC2 rfl (by decide)

/-- C3 counterexample: the claim says two outcomes differing in any of the
three fields never share a ResponseKey; but the key is the space-joined
template `{status} {statusText} {body}`, so an outcome with
statusText "OK a", body "b" and one with statusText "OK", body "a b"
share the key "200 OK a b" while differing in two fields. -/
theorem responseKey_not_injective :
    responseKey (NodeOutcome.success 200 "OK a" "b") =
      responseKey (NodeOutcome.success 200 "OK" "a b") ∧
    (NodeOutcome.success 200 "OK a" "b" : NodeOutcome) ≠
      NodeOutcome.success 200 "OK" "a b" := by
  constructor
  · rfl
  · decide

/-- C3 (amended): two outcomes are counted toward the same running counter
iff their ResponseKeys — the exact, unnormalized strings
`{status} {statusText} {body}` — are equal; outcomes with equal fields always
share a key, but outcomes differing in a field may still collide when a field
embeds the separator. -/
theorem votes_bucket_by_responseKey (F : Nat) (st : BCState) (o : NodeOutcome)
    (k : String) :
    getCount (processResponse F st o).counts k =
      getCount st.counts k + (if responseKey o = k then 1 else 0) :=
  getCount_processResponse F st o k

/-- Response object a settled broadcast resolves with:
`{status, statusText, body}`. -/
structure RespVal where
  status : Nat
  statusText : String
  body : String
deriving DecidableEq, Repr

/-- The credential record `PBFTClient.lookup` builds on Success: dummy
placeholder metadata with the caller's email and the broadcast body as
`publicKeyArmored`. -/
structure Credential where
  keyId : String
  fingerprint : String
  name : String
  email : String
  verified : Bool
  created : String
  uploaded : String
  algorithm : String
  keySize : Nat
  publicKeyArmored : String
deriving DecidableEq, Repr

def mkLookupCredential (email body : String) : Credential :=
  ⟨"keyid", "fingerprint", "name", email, true,
   "2017-12-10T03: 03: 20.763Z", "2017-12-10T03: 03: 20.763Z",
   "rsa_encrypt_sign", 4096, body⟩

/-- `PBFTClient.lookup` (latest revision): on a resolved broadcast, format the
body into the Mailvelope credential payload; on a rejected broadcast, the
catch handler logs and rethrows the failure string unchanged. -/
def pbftLookup (email : String) (broadcastOutcome : Except String RespVal) :
    Except String Credential :=
  match broadcastOutcome with
  | .ok r => .ok (mkLookupCredential email r.body)
  | .error e => .error e

theorem firstQuorum_rejected_mem (F : Nat) (arrivals : List NodeOutcome) :
    ∀ m e, firstQuorum F m arrivals = some (QuorumResult.rejected e) →
      ∃ s t b, NodeOutcome.failure s t b ∈ arrivals ∧ e = s!"{s} {t} {b}" := by
  induction arrivals with
  | nil => intro m e h; simp [firstQuorum] at h
  | cons o rest ih =>
    intro m e h
    rw [firstQuorum] at h
    by_cases hc : getCount m (responseKey o) + 1 = F + 1
    · simp only [hc, if_pos rfl, Option.some.injEq] at h
      match o, h with
      | NodeOutcome.failure s t b, h =>
        have he : e = s!"{s} {t} {b}" := by
          simpa [settleOf] using h.symm
        exact ⟨s, t, b, by simp, he⟩
    · simp only [hc, if_false] at h
      obtain ⟨s, t, b, hmem, he⟩ := ih _ e h
      exact ⟨s, t, b, by simp [hmem], he⟩

/-- C4: when a broadcast rejects (a quorum of `F + 1` matching Failures
formed), the error string is the `{statusCode} {statusText} {body}` key of
one of the arriving Failure outcomes, and `PBFTClient.lookup` propagates that
failure string unchanged to its caller. -/
theorem quorum_failure_propagates (F : Nat) (arrivals : List NodeOutcome)
    (e : String) (email : String)
    (h : (broadcastRun F arrivals).settled = some (QuorumResult.rejected e)) :
    (∃ s t b, NodeOutcome.failure s t b ∈ arrivals ∧ e = s!"{s} {t} {b}") ∧
    pbftLookup email (Except.error e) = Except.error e := by
  refine ⟨?_, rfl⟩
  rw [broadcastRun, foldl_none_firstQuorum F arrivals []] at h
  exact firstQuorum_rejected_mem F arrivals [] e h

/-- Failure-quorum scenario: N = 4, F = 1, two matching 404 failures. -/
def arrC4 : List NodeOutcome :=
  [.failure 404 "Not Found" "x", .failure 404 "Not Found" "x"]

theorem quorum_failure_propagates_witness :
    (broadcastRun 1 arrC4).settled = some (QuorumResult.rejected "404 Not Found x") ∧
    ((∃ s t b, NodeOutcome.failure s t b ∈ arrC4 ∧ "404 Not Found x" = s!"{s} {t} {b}") ∧
      pbftLookup "a@b.c" (Except.error "404 Not Found x") =
        Except.error "404 Not Found x") :=
  ⟨by decide, quorum_failure_propagates 1 arrC4 "404 Not Found x" "a@b.c" (by decide)⟩

/-- The fixed per-node deadline raced against each node's fetch. -/
def perNodeTimeoutMs : Nat := 7000

/-- The outcome `processResponse` sees for a timed-out node: the race rejects
with `{status: 520, statusText: "Request Timeout"}`, which has no `ok` field
(failure branch) and no `text` method (body falls back to `""`). -/
def timeoutOutcome : NodeOutcome := .failure 520 "Request Timeout" ""

/-- C5: a node missing the fixed 7000 ms deadline contributes exactly one
synthesized Failure outcome with statusCode 520, statusText "Request Timeout"
and empty body; it adds one vote to that key's counter and is surfaced only
through the quorum aggregate (the call settles on it iff the key's counter
reaches `F + 1`, rejecting with the aggregated key, never with the
individual response). -/
theorem timeout_is_one_failure_vote (F : Nat) (st : BCState)
    (hopen : st.settled = none) :
    perNodeTimeoutMs = 7000 ∧
    timeoutOutcome = NodeOutcome.failure 520 "Request Timeout" "" ∧
    responseKey timeoutOutcome = "520 Request Timeout " ∧
    getCount (processResponse F st timeoutOutcome).counts (responseKey timeoutOutcome) =
      getCount st.counts (responseKey timeoutOutcome) + 1 ∧
    ((processResponse F st timeoutOutcome).settled = none ↔
      getCount st.counts (responseKey timeoutOutcome) + 1 ≠ F + 1) ∧
    (getCount st.counts (responseKey timeoutOutcome) + 1 = F + 1 →
      (processResponse F st timeoutOutcome).settled =
        some (QuorumResult.rejected (responseKey timeoutOutcome))) := by
  have hsettle : ∀ hc : getCount st.counts (responseKey timeoutOutcome) + 1 = F + 1,
      (processResponse F st timeoutOutcome).settled = some (settleOf timeoutOutcome) := by
    intro hc
    simp [processResponse, hc, hopen]
  refine ⟨rfl, rfl, rfl, ?_, ?_, ?_⟩
  · simpa using getCount_processResponse F st timeoutOutcome (responseKey timeoutOutcome)
  · constructor
    · intro h hc
      rw [hsettle hc] at h
      exact Option.noConfusion h
    · intro hne
      simp [processResponse, hne, hopen]
  · intro hc
    rw [hsettle hc]
    rfl

theorem timeout_is_one_failure_vote_witness :
    perNodeTimeoutMs = 7000 ∧
    timeoutOutcome = NodeOutcome.failure 520 "Request Timeout" "" ∧
    responseKey timeoutOutcome = "520 Request Timeout " ∧
    getCount (processResponse 1 ⟨[], none⟩ timeoutOutcome).counts (responseKey timeoutOutcome) =
      getCount (BCState.mk [] none).counts (responseKey timeoutOutcome) + 1 ∧
    ((processResponse 1 ⟨[], none⟩ timeoutOutcome).settled = none ↔
      getCount (BCState.mk [] none).counts (responseKey timeoutOutcome) + 1 ≠ 1 + 1) ∧
    (getCount (BCState.mk [] none).counts (responseKey timeoutOutcome) + 1 = 1 + 1 →
      (processResponse 1 ⟨[], none⟩ timeoutOutcome).settled =
        some (QuorumResult.rejected (responseKey timeoutOutcome))) :=
  timeout_is_one_failure_vote 1 ⟨[], none⟩ rfl

/-- A cluster node endpoint `{host, clientport}` from `config/cluster.json`. -/
structure ClusterNode where
  host : String
  clientport : Nat
deriving DecidableEq, Repr

/-- The configuration document: `{nodes: [...]}`. -/
structure ClusterConfig where
  nodes : List ClusterNode
deriving DecidableEq, Repr

/-- `this._pbftClient` field of `KeyServer` (unset on a fresh instance). -/
structure KeyServerState where
  pbftClient : Option ClusterConfig
deriving DecidableEq, Repr

/-- Result of one `KeyServer.getPBFTClient()` call: the client's
configuration, the `this`-state after the call, and how many fetches of the
configuration document the call performed. -/
structure GetClientResult where
  client : ClusterConfig
  state : KeyServerState
  configFetches : Nat
deriving DecidableEq, Repr

/-- `KeyServer.getPBFTClient`: if `this._pbftClient` is set, resolve with it
(no fetch); otherwise fetch `config/cluster.json` and construct a new
`PBFTClient` from it. The source never assigns `this._pbftClient`, so the
state is returned unchanged in both branches. -/
def getPBFTClient (configDoc : ClusterConfig) (st : KeyServerState) : GetClientResult :=
  match st.pbftClient with
  | some c => ⟨c, st, 0⟩
  | none => ⟨configDoc, st, 1⟩

/-- C6 (code bug): on a fresh `KeyServer`, two consecutive `getPBFTClient()`
calls each fetch the configuration document — the cache guard tests
`this._pbftClient` but the field is never assigned, so the claimed
"no second fetch after the first successful load" fails. -/
theorem config_refetched_every_call :
    let cfg : ClusterConfig := ⟨[⟨"localhost", 8000⟩]⟩
    let first := getPBFTClient cfg ⟨none⟩
    let second := getPBFTClient cfg first.state
    first.configFetches = 1 ∧ second.configFetches = 1 ∧
      first.state = ⟨none⟩ ∧ second.state = ⟨none⟩ := by
  exact ⟨rfl, rfl, rfl, rfl⟩

/-- Rejection string of `KeyServer.lookup` for a missing/empty email. -/
def ksLookupRejectMsg : String := "Only lookup by email is currently supported by PBFT"

/-- JS truthiness test `!options.email`: true for an absent or empty email. -/
def isEmptyIdentity : Option String → Bool
  | none => true
  | some s => s = ""

/-- Result of one `KeyServer.lookup` call: the settled value (an error string
when rejected, otherwise the value the promise resolves with) and the number
of requests issued to cluster nodes. -/
structure KSLookupOut where
  result : Except String (Option String)
  nodeRequests : Nat
deriving Repr

/-- `KeyServer.lookup`: reject immediately when `!options.email`; otherwise
obtain the client and run the PBFT lookup, which fans one request out to each
cluster node; the trailing catch logs a lookup error and resolves with
`undefined` (`none`). -/
def keyServerLookup (email : Option String) (cfg : ClusterConfig)
    (pbftOutcome : Except String RespVal) : KSLookupOut :=
  if isEmptyIdentity email then
    ⟨.error ksLookupRejectMsg, 0⟩
  else
    match pbftOutcome with
    | .ok r => ⟨.ok (some r.body), cfg.nodes.length⟩
    | .error _ => ⟨.ok none, cfg.nodes.length⟩

/-- C7: for every empty identity, `KeyServer.lookup` rejects locally before
any network call: no request is issued to any cluster node. -/
theorem empty_identity_rejected_locally (email : Option String)
    (cfg : ClusterConfig) (pbftOutcome : Except String RespVal)
    (h : isEmptyIdentity email = true) :
    keyServerLookup email cfg pbftOutcome =
      ⟨.error ksLookupRejectMsg, 0⟩ := by
  simp [keyServerLookup, h]

theorem empty_identity_rejected_locally_witness :
    isEmptyIdentity (some "") = true ∧
    keyServerLookup (some "") ⟨[⟨"localhost", 8000⟩]⟩ (Except.ok ⟨200, "OK", "X"⟩) =
      ⟨Except.error ksLookupRejectMsg, 0⟩ :=
  ⟨rfl, empty_identity_rejected_locally (some "") ⟨[⟨"localhost", 8000⟩]⟩
    (Except.ok ⟨200, "OK", "X"⟩) rfl⟩

/-- A value flowing through a rejected promise in `PBFTClient.upload`:
a plain string (broadcast rejections), an `Error` object carrying a message
(`findPrivateKey`), or an object literal `{message: e}` (the inner broadcast
catch handlers). -/
inductive JsVal where
  | str (s : String)
  | errObj (msg : String)
  | msgObj (inner : JsVal)
deriving DecidableEq, Repr

/-- JS `String.prototype.startsWith`, rendered over the character list. -/
def strStartsWith (s pre : String) : Bool :=
  s.data.take pre.data.length = pre.data

/-- The "semi-hacky" not-found test of the outer catch:
`typeof e === "string" && e.startsWith(404)` (the number 404 is coerced to
the string "404"). -/
def isNotFoundErr : JsVal → Bool
  | .str s => strStartsWith s "404"
  | .errObj _ => false
  | .msgObj _ => false

/-- Payload of `genPayload` / `appendSignature`:
`{alias, key, timestamp}` plus the optional appended `signature`
(`keyAlias` embeds the JSON field `alias`, a reserved word here). -/
structure KeyPayload where
  keyAlias : String
  key : String
  timestamp : Nat
  signature : Option String
deriving DecidableEq, Repr

/-- `PBFTClient.genPayload`: fresh payload with the current time. -/
def genPayload (email publicKey : String) (now : Nat) : KeyPayload :=
  ⟨email, publicKey, now, none⟩

/-- `PBFTClient.appendSignature`: set the payload's `signature` field. -/
def appendSignature (p : KeyPayload) (sig : String) : KeyPayload :=
  { p with signature := some sig }

/-- Message of the `Error` thrown by `findPrivateKey` on zero matches. -/
def ownershipErrMsg (email : String) : String :=
  "You do not own the key for the email " ++ email ++ " so you cannot update it."

/-- `lockedKeysEx`: the ring's private keys for the email, filtered by
fingerprint inequality with the uploaded key's fingerprint. -/
def eligibleKeys (excludeFp : String) (ringKeys : List String) : List String :=
  ringKeys.filter (fun fp => fp ≠ excludeFp)

/-- `PBFTClient.findPrivateKey`: zero eligible keys throw the ownership
`Error`; otherwise the first match is selected (and then unlocked with a
prompted passphrase, abstracted away). -/
def findPrivateKey (email : String) (excludeFp : String) (ringKeys : List String) :
    Except JsVal String :=
  match eligibleKeys excludeFp ringKeys with
  | [] => .error (.errObj (ownershipErrMsg email))
  | fp :: _ => .ok fp

/-- One `_broadcast` invocation recorded by the upload trace. -/
structure BroadcastCall where
  path : String
  method : String
  payload : KeyPayload
deriving DecidableEq, Repr

/-- Outcomes of the external collaborators one `PBFTClient.upload` call
interacts with: the initial lookup, the local keyring, the signing service,
the prompt, and the settlements of the PUT and POST broadcasts. -/
structure UploadEnv where
  lookupResult : Except JsVal RespVal
  ringKeys : List String
  excludeFp : String
  signSig : String
  promptSig : String
  putResult : Except String RespVal
  postResult : Except String RespVal
deriving Repr

/-- Externally visible effects of one `PBFTClient.upload` call: the broadcasts
issued, the fingerprint removed from the local keyring (if any), whether the
signature prompt was shown, and the settled value. -/
structure UploadTrace where
  calls : List BroadcastCall
  removedFp : Option String
  promptedSignature : Bool
  result : Except JsVal RespVal
deriving Repr

/-- The `then`-chain of `PBFTClient.upload` before the outer catch:
lookup, then `findPrivateKey`, then sign (`signPayload` appends the signing
service's signature to `genPayload(email, publicKey)`), then the PUT
broadcast; on PUT commit `ring.removeKey(oldPrivateKey...)` runs; the inner
catch wraps a PUT rejection as `{message: e}`. -/
def uploadAttempt (env : UploadEnv) (email publicKey : String) (now : Nat) :
    UploadTrace :=
  match env.lookupResult with
  | .error e => ⟨[], none, false, .error e⟩
  | .ok _ =>
    match findPrivateKey email env.excludeFp env.ringKeys with
    | .error e => ⟨[], none, false, .error e⟩
    | .ok fp =>
      let signedPayload := appendSignature (genPayload email publicKey now) env.signSig
      match env.putResult with
      | .ok r => ⟨[⟨"", "PUT", signedPayload⟩], some fp, false, .ok r⟩
      | .error e => ⟨[⟨"", "PUT", signedPayload⟩], none, false, .error (.msgObj (.str e))⟩

/-- `PBFTClient.upload` (latest revision): the `then`-chain plus the outer
catch. A string error starting with "404" triggers the not-found branch:
prompt for a signature, append it to a freshly built payload, submit via the
POST broadcast (whose own catch wraps a rejection as `{message: e}`); every
other error is rethrown verbatim. -/
def upload (env : UploadEnv) (email publicKey : String) (now : Nat) : UploadTrace :=
  let t := uploadAttempt env email publicKey now
  match t.result with
  | .ok _ => t
  | .error e =>
    if isNotFoundErr e then
      let p := appendSignature (genPayload email publicKey now) env.promptSig
      match env.postResult with
      | .ok r => ⟨t.calls ++ [⟨"", "POST", p⟩], t.removedFp, true, .ok r⟩
      | .error e2 => ⟨t.calls ++ [⟨"", "POST", p⟩], t.removedFp, true,
          .error (.msgObj (.str e2))⟩
    else t

/-- The inner catch of the POST branch: a rejection `e` is rethrown as the
object literal `{message: e}`. -/
def postCatch : Except String RespVal → Except JsVal RespVal
  | .ok r => .ok r
  | .error e => .error (.msgObj (.str e))

/-- C8: if the initial lookup fails with a string error starting with "404"
(the not-found class), `upload` prompts for an external signature, attaches
it to a freshly built payload and submits it via the POST broadcast; every
lookup failure that is not of the not-found class aborts the workflow with
the error surfaced verbatim, with no broadcast and no prompt. -/
theorem upload_lookup_failure_branches (env : UploadEnv) (email pk : String)
    (now : Nat) (e : JsVal) (h : env.lookupResult = Except.error e) :
    (isNotFoundErr e = true →
      upload env email pk now =
        ⟨[⟨"", "POST", appendSignature (genPayload email pk now) env.promptSig⟩],
         none, true, postCatch env.postResult⟩) ∧
    (isNotFoundErr e = false →
      upload env email pk now = ⟨[], none, false, Except.error e⟩) := by
  have hatt : uploadAttempt env email pk now = ⟨[], none, false, Except.error e⟩ := by
    simp [uploadAttempt, h]
  constructor
  · intro hnf
    cases hpost : env.postResult with
    | ok r => simp [upload, hatt, hnf, postCatch, hpost]
    | error e2 => simp [upload, hatt, hnf, postCatch, hpost]
  · intro hnf
    simp [upload, hatt, hnf]

def envC8 : UploadEnv :=
  ⟨Except.error (JsVal.str "404 Not Found x"), [], "fp", "sg", "ps",
   Except.error "500 Oops y", Except.ok ⟨200, "OK", "done"⟩⟩

theorem upload_lookup_failure_branches_witness :
    isNotFoundErr (JsVal.str "404 Not Found x") = true ∧
    ((isNotFoundErr (JsVal.str "404 Not Found x") = true →
      upload envC8 "a@b.c" "PK" 5 =
        ⟨[⟨"", "POST", appendSignature (genPayload "a@b.c" "PK" 5) envC8.promptSig⟩],
         none, true, postCatch envC8.postResult⟩) ∧
    (isNotFoundErr (JsVal.str "404 Not Found x") = false →
      upload envC8 "a@b.c" "PK" 5 =
        ⟨[], none, false, Except.error (JsVal.str "404 Not Found x")⟩)) :=
  ⟨by decide,
   upload_lookup_failure_branches envC8 "a@b.c" "PK" 5 (JsVal.str "404 Not Found x") rfl⟩


/-- C9: in the found branch, if the local keyring holds zero private keys for
the identity once the uploaded key's fingerprint is excluded, the ownership
`Error` aborts the workflow with no broadcast, no prompt and no keyring
removal; if one or more remain, the first is the key selected for signing. -/
theorem upload_ownership_error (env : UploadEnv) (email pk : String) (now : Nat)
    (r : RespVal) (hl : env.lookupResult = Except.ok r) :
    (eligibleKeys env.excludeFp env.ringKeys = [] →
      upload env email pk now =
        ⟨[], none, false, Except.error (JsVal.errObj (ownershipErrMsg email))⟩) ∧
    (∀ fp rest, eligibleKeys env.excludeFp env.ringKeys = fp :: rest →
      findPrivateKey email env.excludeFp env.ringKeys = Except.ok fp) := by
  constructor
  · intro hf
    have hatt : uploadAttempt env email pk now =
        ⟨[], none, false, Except.error (JsVal.errObj (ownershipErrMsg email))⟩ := by
      simp [uploadAttempt, hl, findPrivateKey, hf]
    simp [upload, hatt, isNotFoundErr]
  · intro fp rest hf
    simp [findPrivateKey, hf]

def envC9 : UploadEnv :=
  ⟨Except.ok ⟨200, "OK", "old"⟩, ["fpA"], "fpA", "sg", "ps",
   Except.ok ⟨200, "OK", "done"⟩, Except.ok ⟨200, "OK", "done"⟩⟩

theorem upload_ownership_error_witness :
    eligibleKeys envC9.excludeFp envC9.ringKeys = [] ∧
    ((eligibleKeys envC9.excludeFp envC9.ringKeys = [] →
      upload envC9 "a@b.c" "PK" 5 =
        ⟨[], none, false, Except.error (JsVal.errObj (ownershipErrMsg "a@b.c"))⟩) ∧
    (∀ fp rest, eligibleKeys envC9.excludeFp envC9.ringKeys = fp :: rest →
      findPrivateKey "a@b.c" envC9.excludeFp envC9.ringKeys = Except.ok fp)) :=
  ⟨by decide, upload_ownership_error envC9 "a@b.c" "PK" 5 ⟨200, "OK", "old"⟩ rfl⟩

/-- C10: in the found branch, the old local credential is removed from the
keyring exactly when the PUT broadcast commits; a rejected PUT leaves the
keyring untouched and surfaces the wrapped `{message: e}` error. -/
theorem old_credential_retired_iff_put_commits (env : UploadEnv) (email pk : String)
    (now : Nat) (r : RespVal) (hl : env.lookupResult = Except.ok r)
    (fp : String) (rest : List String)
    (hf : eligibleKeys env.excludeFp env.ringKeys = fp :: rest) :
    ((upload env email pk now).removedFp = some fp ↔
      ∃ rr, env.putResult = Except.ok rr) ∧
    (∀ err, env.putResult = Except.error err →
      (upload env email pk now).removedFp = none ∧
      (upload env email pk now).result = Except.error (JsVal.msgObj (JsVal.str err))) := by
  have hfind : findPrivateKey email env.excludeFp env.ringKeys = Except.ok fp := by
    simp [findPrivateKey, hf]
  cases hput : env.putResult with
  | ok rr =>
    have hatt : uploadAttempt env email pk now =
        ⟨[⟨"", "PUT", appendSignature (genPayload email pk now) env.signSig⟩],
         some fp, false, Except.ok rr⟩ := by
      simp [uploadAttempt, hl, hfind, hput]
    constructor
    · simp [upload, hatt]
    · intro err herr
      exact Except.noConfusion herr
  | error err0 =>
    have hatt : uploadAttempt env email pk now =
        ⟨[⟨"", "PUT", appendSignature (genPayload email pk now) env.signSig⟩],
         none, false, Except.error (JsVal.msgObj (JsVal.str err0))⟩ := by
      simp [uploadAttempt, hl, hfind, hput]
    have hup : upload env email pk now = uploadAttempt env email pk now := by
      simp [upload, hatt, isNotFoundErr]
    constructor
    · rw [hup, hatt]
      simp
    · intro err herr
      cases herr
      rw [hup, hatt]
      exact ⟨rfl, rfl⟩

def envC10 : UploadEnv :=
  ⟨Except.ok ⟨200, "OK", "old"⟩, ["fpA", "fpB"], "fpB", "sg", "ps",
   Except.ok ⟨200, "OK", "done"⟩, Except.ok ⟨200, "OK", "done"⟩⟩

theorem old_credential_retired_iff_put_commits_witness :
    eligibleKeys envC10.excludeFp envC10.ringKeys = ["fpA"] ∧
    (((upload envC10 "a@b.c" "PK" 5).removedFp = some "fpA" ↔
      ∃ rr, envC10.putResult = Except.ok rr) ∧
    (∀ err, envC10.putResult = Except.error err →
      (upload envC10 "a@b.c" "PK" 5).removedFp = none ∧
      (upload envC10 "a@b.c" "PK" 5).result =
        Except.error (JsVal.msgObj (JsVal.str err)))) :=
  ⟨by decide,
   old_credential_retired_iff_put_commits envC10 "a@b.c" "PK" 5 ⟨200, "OK", "old"⟩ rfl
     "fpA" [] (by decide)⟩
